import Mathlib

/-
Shallow embedding of the cloudsight-go client library (cloudsight.go,
oauth.go, params.go) and a verification of its polling / signing
specification.

Modelling conventions:
- Time instants and durations are `Int` nanoseconds (Go `time.Time` /
  `time.Duration`); `time.Second` is the constant `Second` below.
- The network is an oracle: each HTTP round trip is an `HttpOutcome`
  supplied by the environment (transport failure, JSON decode failure, or
  a decoded `apiResponse` with an HTTP status code).  JSON numbers (the
  `ttl` field, Go `float64`) are modelled as `Rat`: the code only stores
  and copies them, never computes with them.
- Go maps (`type Params map[string]string`) are association lists with
  insert-overwrite semantics; in-place mutation becomes explicit state
  passing (functions return the mutated map).
- `crypto/rand.Read` is an oracle: `Option (List Nat)` (none = the random
  source failed).  SHA-256 and HMAC-SHA1 are opaque byte functions
  supplied in a `CryptoEnv`; hex, base64 and URL query escaping are
  implemented concretely.
- The per-job mutex only serializes concurrent polls; the sequential
  semantics embedded here is the behaviour under that serialization.
-/

namespace CloudSight

/-- Go `time.Second` in nanoseconds. -/
def Second : Int := 1000000000

/-- `const pollMinWait = time.Second * 4` (cloudsight.go). -/
def pollMinWait : Int := Second * 4

/-- `const BaseURL = "https://api.cloudsightapi.com"`. -/
def BaseURL : String := "https://api.cloudsightapi.com"

/-- `const DefaultLocale = "en-US"`. -/
def DefaultLocale : String := "en-US"

/-- `requestsURL = BaseURL + "/image_requests"`. -/
def requestsURL : String := BaseURL ++ "/image_requests"

/-- `responsesURL = BaseURL + "/image_responses/"`. -/
def responsesURL : String := BaseURL ++ "/image_responses/"

/-- Go `type JobStatus string`: an open string type, not a closed sum. -/
abbrev JobStatus := String

def StatusNotCompleted : JobStatus := "not completed"

def StatusCompleted : JobStatus := "completed"

def StatusNotFound : JobStatus := "not found"

def StatusSkipped : JobStatus := "skipped"

def StatusTimeout : JobStatus := "timeout"

/-- The five declared `JobStatus` constants. -/
def statusValues : List JobStatus :=
  [StatusNotCompleted, StatusCompleted, StatusNotFound, StatusSkipped, StatusTimeout]

/-- Go `type SkipReason string`: likewise an open string type. -/
abbrev SkipReason := String

def ReasonOffensive : SkipReason := "offensive"

def ReasonBlurry : SkipReason := "blurry"

def ReasonClose : SkipReason := "close"

def ReasonDark : SkipReason := "dark"

def ReasonBright : SkipReason := "bright"

def ReasonUnsure : SkipReason := "unsure"

/-- The sentinel errors of cloudsight.go, plus `errMsg` for errors built
with `fmt.Errorf` (identified by their formatted message). -/
inductive CloudErr where
  | errMissingKey
  | errMissingSecret
  | errTimeout
  | errInvalidRepostStatus
  | errMsg (s : String)
deriving DecidableEq

/-- Decoded JSON body of a submission/poll response (`apiResponse`).
`error` is Go's `json.RawMessage`: `none` models a `nil` (absent) field. -/
structure ApiResponse where
  categories : List String
  error : Option String
  name : String
  reason : String
  status : String
  ttl : Rat
  token : String
  url : String
deriving DecidableEq

/-- The `Job` structure.  The Go struct additionally holds `mu
*sync.Mutex`, which has no sequential content and is dropped. -/
structure Job where
  Categories : List String
  Name : String
  Status : JobStatus
  TTL : Rat
  Token : String
  URL : String
  SkipReason : SkipReason
  createdAt : Int
deriving DecidableEq

/-- `type Client struct { key, secret string }`. -/
structure Client where
  key : String
  secret : String
deriving DecidableEq

/-- `NewClientOAuth`. -/
def NewClientOAuth (key secret : String) : Except CloudErr Client :=
  if key = "" then .error .errMissingKey
  else if secret = "" then .error .errMissingSecret
  else .ok ⟨key, secret⟩

/-- `NewClientSimple`. -/
def NewClientSimple (key : String) : Except CloudErr Client :=
  if key = "" then .error .errMissingKey
  else .ok ⟨key, ""⟩

/-- Go `type Params map[string]string`, as an association list. -/
abbrev Params := List (String × String)

/-- Map lookup `p[k]` (first binding wins). -/
def Params.get : Params → String → Option String
  | [], _ => none
  | (k, v) :: rest, key => if k = key then some v else Params.get rest key

/-- Map assignment `p[k] = v` (overwrites any existing binding). -/
def Params.insert (p : Params) (k v : String) : Params :=
  (k, v) :: p.filter (fun kv => kv.1 ≠ k)

/-- `_, ok := p[k]` membership test. -/
def Params.containsKey (p : Params) (k : String) : Bool :=
  (p.get k).isSome

/-- One HTTP round trip as seen by the client after JSON decoding:
transport failure (`http.DefaultClient.Do` error), body decode failure
(`json.Decoder.Decode` error), or a decoded body with its HTTP status. -/
inductive HttpOutcome where
  | transportError (msg : String)
  | decodeError (msg : String)
  | response (statusCode : Nat) (body : ApiResponse)
deriving DecidableEq

/-- `Client.updateJobFromRequest`: decode the poll response and, on
success, overwrite exactly `Categories`, `Name`, `Status`, `TTL` and
`SkipReason`.  On any error the job is not mutated (the caller keeps the
old value). -/
def updateJobFromRequest (job : Job) (o : HttpOutcome) : Except CloudErr Job :=
  match o with
  | .transportError msg => .error (.errMsg ("HTTP error: " ++ msg))
  | .decodeError msg => .error (.errMsg ("JSON error: " ++ msg))
  | .response code body =>
    match body.error with
    | some e => .error (.errMsg ("api error: " ++ e ++ ", status code: " ++ toString code))
    | none => .ok { job with
        Categories := body.categories
        Name := body.name
        Status := body.status
        TTL := body.ttl
        SkipReason := body.reason }

/-- Environment of one `UpdateJob` call: `authErr` is a `getAuthHeader`
failure (only possible in OAuth mode, when the random source fails),
`outcome` is the network round trip the call would perform, `dur` is the
wall-clock time that round trip consumes. -/
structure CallEnv where
  authErr : Option String
  outcome : HttpOutcome
  dur : Int

/-- Result of `Client.UpdateJob`: the (possibly updated) job, the
returned error, and whether a network call was issued. -/
structure UpdateResult where
  job : Job
  err : Option CloudErr
  netCall : Bool
deriving DecidableEq

/-- `Client.UpdateJob`: under the job's mutex, return immediately when
the status has left "not completed"; otherwise build the authenticated
GET and refresh the job from the response. -/
def UpdateJob (job : Job) (env : CallEnv) : UpdateResult :=
  if job.Status ≠ StatusNotCompleted then ⟨job, none, false⟩
  else
    match env.authErr with
    | some e => ⟨job, some (.errMsg e), false⟩
    | none =>
      match updateJobFromRequest job env.outcome with
      | .error e => ⟨job, some e, true⟩
      | .ok j => ⟨j, none, true⟩

/-- One iteration record of the `WaitJob` loop: the instant at which
`UpdateJob` was invoked (the instant the network request is issued, when
one is issued), whether a network call was made, the error returned, and
the job status after the call. -/
structure IterRec where
  issuedAt : Int
  netCall : Bool
  err : Option CloudErr
  statusAfter : JobStatus
deriving DecidableEq

/-- Outcome of running the `WaitJob` loop under bounded fuel:
`result = none` means the fuel ran out with the Go loop still running;
`result = some none` is a `nil` return, `result = some (some e)` an
error return.  `trace` records the iterations, `job`/`now` the job and
clock at exit. -/
structure WaitOut where
  result : Option (Option CloudErr)
  trace : List IterRec
  job : Job
  now : Int
deriving DecidableEq

/-- The `for` loop of `Client.WaitJob` under a deterministic injected
clock: only sleeps and network round trips advance time.  `k` indexes
the per-iteration environment, `now` is the current clock. -/
def waitLoop (env : Nat → CallEnv) (timeout timeoutAt : Int) :
    Nat → Job → Int → Nat → WaitOut
  | _, job, now, 0 => ⟨none, [], job, now⟩
  | k, job, now, fuel + 1 =>
    if 0 < timeout ∧ timeoutAt < now then ⟨some (some .errTimeout), [], job, now⟩
    else
      let u := UpdateJob job (env k)
      let now1 := now + (if u.netCall then (env k).dur else 0)
      let r : IterRec := ⟨now, u.netCall, u.err, u.job.Status⟩
      match u.err with
      | some e => ⟨some (some e), [r], u.job, now1⟩
      | none =>
        if u.job.Status ≠ StatusNotCompleted then ⟨some none, [r], u.job, now1⟩
        else
          let rest := waitLoop env timeout timeoutAt (k + 1) u.job (now1 + Second) fuel
          ⟨rest.result, r :: rest.trace, rest.job, rest.now⟩

/-- `Client.WaitJob`: record the deadline, sleep through the initial
quiet period (`createdAt + pollMinWait`) when it is still in the future,
then run the poll loop.  `start` is the value of `time.Now()` at entry. -/
def WaitJob (job : Job) (timeout start : Int) (env : Nat → CallEnv) (fuel : Nat) : WaitOut :=
  let timeoutAt := start + timeout
  let waitUntil := job.createdAt + pollMinWait
  let now := if start < waitUntil then waitUntil else start
  waitLoop env timeout timeoutAt 0 job now fuel

/-- `oauthSignatureMethod` (oauth.go). -/
def oauthSignatureMethod : String := "HMAC-SHA1"

/-- `oauthVersion` (oauth.go). -/
def oauthVersion : String := "1.0"

/-- The cryptographic primitives used by oauth.go, as opaque byte
functions over `Nat`-valued bytes: `sha256` models
`crypto/sha256.Sum256`, `hmacSha1 key msg` models
`hmac.New(sha1.New, key)` fed `msg`. -/
structure CryptoEnv where
  sha256 : List Nat → List Nat
  hmacSha1 : List Nat → List Nat → List Nat

/-- Lowercase hex digit (for `encoding/hex`). -/
def hexDigit (n : Nat) : Char :=
  if n < 10 then Char.ofNat (48 + n) else Char.ofNat (87 + n)

/-- `hex.EncodeToString`: two lowercase digits per byte, high nibble
first. -/
def hexEncode (bs : List Nat) : String :=
  String.mk (bs.foldr (fun b acc => hexDigit (b / 16 % 16) :: hexDigit (b % 16) :: acc) [])

/-- Uppercase hex digit (for `net/url` percent escaping). -/
def upperHexDigit (n : Nat) : Char :=
  if n < 10 then Char.ofNat (48 + n) else Char.ofNat (55 + n)

/-- The bytes of a string in UTF-8, as `Nat`s (Go strings are byte
slices). -/
def stringBytes (s : String) : List Nat :=
  s.toUTF8.toList.map (fun b => b.toNat)

/-- Which bytes `url.QueryEscape` leaves unescaped: ASCII alphanumerics
and `-`, `_`, `.`, `~`. -/
def shouldEscapeByte (b : Nat) : Bool :=
  ¬((65 ≤ b ∧ b ≤ 90) ∨ (97 ≤ b ∧ b ≤ 122) ∨ (48 ≤ b ∧ b ≤ 57) ∨
    b = 45 ∨ b = 95 ∨ b = 46 ∨ b = 126)

/-- `url.QueryEscape`: space becomes `+`, reserved bytes become `%XX`
with uppercase hex. -/
def queryEscape (s : String) : String :=
  String.mk ((stringBytes s).foldr (fun b acc =>
    if b = 32 then '+' :: acc
    else if shouldEscapeByte b then
      '%' :: upperHexDigit (b / 16 % 16) :: upperHexDigit (b % 16) :: acc
    else Char.ofNat b :: acc) [])

/-- `Params.values().Encode()`: keys in sorted order, each rendered
`escape(k)=escape(v)`, joined by `&`. -/
def valuesEncode (p : Params) : String :=
  let keys := (p.map Prod.fst).mergeSort (fun a b => decide (a ≤ b))
  String.intercalate "&" (keys.map (fun k => queryEscape k ++ "=" ++ queryEscape ((p.get k).getD "")))

/-- Base64 alphabet character (`encoding/base64.StdEncoding`). -/
def base64Char (n : Nat) : Char :=
  if n < 26 then Char.ofNat (65 + n)
  else if n < 52 then Char.ofNat (97 + (n - 26))
  else if n < 62 then Char.ofNat (48 + (n - 52))
  else if n = 62 then '+' else '/'

/-- `base64.StdEncoding.EncodeToString` with `=` padding. -/
def base64Encode : List Nat → String
  | b1 :: b2 :: b3 :: rest =>
    let n := b1 * 65536 + b2 * 256 + b3
    String.mk [base64Char (n / 262144 % 64), base64Char (n / 4096 % 64),
      base64Char (n / 64 % 64), base64Char (n % 64)] ++ base64Encode rest
  | [b1, b2] =>
    let n := b1 * 65536 + b2 * 256
    String.mk [base64Char (n / 262144 % 64), base64Char (n / 4096 % 64),
      base64Char (n / 64 % 64), '=']
  | [b1] =>
    let n := b1 * 65536
    String.mk [base64Char (n / 262144 % 64), base64Char (n / 4096 % 64), '=', '=']
  | [] => ""

/-- `oauthSign` (oauth.go): replace a nil map by a fresh one, draw 20
random bytes (`randBytes`; `none` models a failing random source), hash
and hex-encode them as the nonce, inject the five oauth parameters into
the parameter map, build the signature base string, HMAC-SHA1 it with
`escape(secret) + "&"`, and assemble the `OAuth ...` header.  Returns
the header together with the mutated parameter map. -/
def oauthSign (crypto : CryptoEnv) (randBytes : Option (List Nat)) (timestamp : Int)
    (method url key secret : String) (params0 : Option Params) :
    Except String (String × Params) :=
  let params := params0.getD []
  match randBytes with
  | none => .error "rand read failed"
  | some buf =>
    let nonce := hexEncode (crypto.sha256 buf)
    let params := params.insert "oauth_nonce" nonce
    let params := params.insert "oauth_consumer_key" key
    let params := params.insert "oauth_signature_method" oauthSignatureMethod
    let params := params.insert "oauth_timestamp" (toString timestamp)
    let params := params.insert "oauth_version" oauthVersion
    let baseString := String.intercalate "&"
      [method.toUpper, queryEscape url, queryEscape (valuesEncode params)]
    let signKey := queryEscape secret ++ "&"
    let signature := crypto.hmacSha1 (stringBytes signKey) (stringBytes baseString)
    let header := "OAuth " ++ String.intercalate ", "
      ["oauth_consumer_key=\"" ++ key ++ "\"",
       "oauth_nonce=\"" ++ nonce ++ "\"",
       "oauth_signature=\"" ++ base64Encode signature ++ "\"",
       "oauth_signature_method=\"" ++ oauthSignatureMethod ++ "\"",
       "oauth_timestamp=\"" ++ toString timestamp ++ "\"",
       "oauth_version=\"" ++ oauthVersion ++ "\""]
    .ok (header, params)

/-- `Client.getAuthHeader`: static `CloudSight <key>` header when no
secret is configured, OAuth1 signing otherwise.  The second component is
the effective parameter map after signing (the map mutated in place in
Go). -/
def getAuthHeader (c : Client) (crypto : CryptoEnv) (randBytes : Option (List Nat))
    (timestamp : Int) (method url : String) (params : Option Params) :
    Except String (String × Params) :=
  if c.secret = "" then .ok ("CloudSight " ++ c.key, params.getD [])
  else oauthSign crypto randBytes timestamp method url c.key c.secret params

/-- Go `strings.HasPrefix s pre` (`pre` an ASCII literal here, so the
character-level test coincides with Go's byte-level one). -/
def prefixedBy (s pre : String) : Bool :=
  pre.data.isPrefixOf s.data

/-- `Client.doImageRequest`: issue the submission request, decode the
body, fail on a service-reported `error` field, normalize a
protocol-relative URL, and build the fresh `Job` (`Categories`, `Name`
and `SkipReason` start at their zero values; `createdAt` is
`time.Now()`, here the injected `now`). -/
def doImageRequest (now : Int) (o : HttpOutcome) : Except CloudErr Job :=
  match o with
  | .transportError msg => .error (.errMsg msg)
  | .decodeError msg => .error (.errMsg msg)
  | .response code body =>
    match body.error with
    | some e => .error (.errMsg ("api error: " ++ e ++ ", status code: " ++ toString code))
    | none =>
      let jobURL := if prefixedBy body.url "//" then "https:" ++ body.url else body.url
      .ok { Categories := []
            Name := ""
            Status := body.status
            TTL := body.ttl
            Token := body.token
            URL := jobURL
            SkipReason := ""
            createdAt := now }

/-- Environment of one submission call (`ImageRequest` /
`RemoteImageRequest`): the signing oracle inputs, the failure points of
multipart body construction (`multipartErr`: `CreateFormFile`/`io.Copy`,
which in Go happen before the parameter map is touched; `closeErr`:
`multi.Close()`, which happens after), the HTTP round trip, and the
submission instant. -/
structure SubmitEnv where
  crypto : CryptoEnv
  randBytes : Option (List Nat)
  timestamp : Int
  multipartErr : Option String
  closeErr : Option String
  http : HttpOutcome
  now : Int

/-- Result of a submission call: the first component is the caller's
parameter map as observable after the call (`none` when the caller
passed a nil map, whose stand-in fresh map the caller never sees). -/
abbrev SubmitResult := Option Params × Except CloudErr Job

/-- `Client.ImageRequest`: build the multipart body, default the locale
parameter into the caller's map, write the fields, sign and send. -/
def ImageRequest (c : Client) (env : SubmitEnv) (params0 : Option Params) : SubmitResult :=
  match env.multipartErr with
  | some e => (params0, .error (.errMsg e))
  | none =>
    let p := params0.getD []
    let p := if (Params.get p "image_request[locale]").isSome then p
             else p.insert "image_request[locale]" DefaultLocale
    match env.closeErr with
    | some e => (params0.map (fun _ => p), .error (.errMsg e))
    | none =>
      match getAuthHeader c env.crypto env.randBytes env.timestamp "POST" requestsURL (some p) with
      | .error e => (params0.map (fun _ => p), .error (.errMsg e))
      | .ok (_, p1) => (params0.map (fun _ => p1), doImageRequest env.now env.http)

/-- `Client.RemoteImageRequest`: default the locale parameter, add the
remote image URL parameter, sign and send. -/
def RemoteImageRequest (c : Client) (env : SubmitEnv) (url : String)
    (params0 : Option Params) : SubmitResult :=
  let p := params0.getD []
  let p := if (Params.get p "image_request[locale]").isSome then p
           else p.insert "image_request[locale]" DefaultLocale
  let p := p.insert "image_request[remote_image_url]" url
  match getAuthHeader c env.crypto env.randBytes env.timestamp "POST" requestsURL (some p) with
  | .error e => (params0.map (fun _ => p), .error (.errMsg e))
  | .ok (_, p1) => (params0.map (fun _ => p1), doImageRequest env.now env.http)

/-- The repost POST round trip: transport failure, or a status code with
the raw response body (the body is only read into the error message, it
is not JSON-decoded). -/
inductive RepostHttp where
  | transportError (msg : String)
  | response (statusCode : Nat) (rawBody : String)
deriving DecidableEq

/-- Environment of one `RepostJob` call: signing oracle inputs for the
POST, the POST round trip, and the environment of the `UpdateJob` call
made on success. -/
structure RepostEnv where
  crypto : CryptoEnv
  randBytes : Option (List Nat)
  timestamp : Int
  post : RepostHttp
  upd : CallEnv

/-- Result of `Client.RepostJob`: the (possibly updated) job, the error
returned, and the number of network calls issued. -/
structure RepostResult where
  job : Job
  err : Option CloudErr
  netCalls : Nat
deriving DecidableEq

/-- `Client.RepostJob`: reject any status other than `StatusTimeout`
before any I/O; otherwise POST to the repost endpoint, surface a
non-200 response as an error carrying body and status code, and on 200
return `c.UpdateJob(job)`. -/
def RepostJob (c : Client) (env : RepostEnv) (job : Job) : RepostResult :=
  if job.Status ≠ StatusTimeout then ⟨job, some .errInvalidRepostStatus, 0⟩
  else
    match getAuthHeader c env.crypto env.randBytes env.timestamp "POST"
        (requestsURL ++ "/" ++ job.Token ++ "/repost") none with
    | .error e => ⟨job, some (.errMsg e), 0⟩
    | .ok _ =>
      match env.post with
      | .transportError m => ⟨job, some (.errMsg ("HTTP error: " ++ m)), 1⟩
      | .response code rawBody =>
        if code ≠ 200 then
          ⟨job, some (.errMsg ("error reposting job: " ++ rawBody ++ ", status: " ++ toString code)), 1⟩
        else
          let u := UpdateJob job env.upd
          ⟨u.job, u.err, 1 + (if u.netCall then 1 else 0)⟩

/-! Concrete sample values used by witnesses and counterexamples. -/

/-- Crypto oracle whose hash functions return the empty digest. -/
def dummyCrypto : CryptoEnv := ⟨fun _ => [], fun _ _ => []⟩

/-- A job with the given status, empty annotation fields and token
`"tok"`. -/
def mkJob (st : JobStatus) (created : Int) : Job :=
  ⟨[], "", st, 0, "tok", "", "", created⟩

/-- A client using simple key authentication. -/
def simpleClient : Client := ⟨"api-key", ""⟩

/-- A poll body still in flight. -/
def respNotCompleted : ApiResponse := ⟨["cat"], none, "a cat", "", "not completed", 0, "tok", ""⟩

/-- A poll body carrying a completed annotation. -/
def respCompleted : ApiResponse := ⟨["cat", "animal"], none, "a cat", "", "completed", 0, "tok", ""⟩

/-- A poll body carrying a service-reported error. -/
def respErr : ApiResponse := ⟨[], some "oops", "", "", "", 0, "", ""⟩

/-- A poll-call environment with instantaneous round trip and working
auth. -/
def envOf (o : HttpOutcome) : CallEnv := ⟨none, o, 0⟩

/-- A repost environment whose POST returns 200 and whose follow-up poll
would report "not completed" with fresh fields. -/
def repostEnv200 : RepostEnv :=
  ⟨dummyCrypto, some [], 0, .response 200 "", envOf (.response 200 respNotCompleted)⟩

/-- Every iteration of a wait-loop trace polled successfully and still
observed status "not completed". -/
def allNotCompleted (tr : List IterRec) : Prop :=
  ∀ r ∈ tr, r.err = none ∧ r.statusAfter = StatusNotCompleted

/-- Consecutive iterations of a wait-loop trace are separated by exactly
the iteration's network round-trip time plus the fixed one-second
inter-poll sleep. -/
def spacedFrom (env : Nat → CallEnv) (k : Nat) : List IterRec → Bool
  | [] => true
  | [_] => true
  | r1 :: r2 :: rest =>
    decide (r2.issuedAt = r1.issuedAt + (env k).dur + Second) && spacedFrom env (k + 1) (r2 :: rest)

/-- Wait-loop environment whose every poll reports "not completed"
instantaneously. -/
def waitEnvNC : Nat → CallEnv := fun _ => envOf (.response 200 respNotCompleted)

/-- Wait-loop environment whose every poll reports "completed"
instantaneously. -/
def waitEnvC : Nat → CallEnv := fun _ => envOf (.response 200 respCompleted)

/-- A job still in flight whose quiet period ended exactly at instant 0. -/
def waitJob0 : Job := mkJob StatusNotCompleted (-pollMinWait)

/-- The five parameter keys injected by signed-mode signing. -/
def oauthKeys : List String :=
  ["oauth_nonce", "oauth_consumer_key", "oauth_signature_method",
   "oauth_timestamp", "oauth_version"]

/-- A one-entry caller parameter map. -/
def c7Params : Params := [("a", "b")]

/-- `c7Params` after signed-mode signing with the dummy crypto oracle
(empty digests), timestamp 0 and consumer key `"k"`. -/
def c7SignedParams : Params :=
  [("oauth_version", "1.0"), ("oauth_timestamp", "0"),
   ("oauth_signature_method", "HMAC-SHA1"), ("oauth_consumer_key", "k"),
   ("oauth_nonce", ""), ("a", "b")]

/-- The OAuth header produced in the same concrete signing run. -/
def c7Header : String :=
  "OAuth oauth_consumer_key=\"k\", oauth_nonce=\"\", oauth_signature=\"\", oauth_signature_method=\"HMAC-SHA1\", oauth_timestamp=\"0\", oauth_version=\"1.0\""

/-- A submission environment with working auth, no multipart failure and
an in-flight response at instant 0. -/
def submitEnv0 : SubmitEnv :=
  ⟨dummyCrypto, some [], 0, none, none, .response 200 respNotCompleted, 0⟩

/-! Claim theorems. -/

/-- Claim C1: a job whose status differs from "not completed" makes
`UpdateJob` a deterministic no-op: no network call, `nil` error, every
field of the job unchanged, for every environment (terminal states are
sticky under polling). -/
theorem c1_terminal_update_noop (job : Job) (env : CallEnv)
    (h : job.Status ≠ StatusNotCompleted) :
    UpdateJob job env = ⟨job, none, false⟩ := by
  unfold UpdateJob
  rw [if_pos h]

/-- Witness for C1 at a concrete completed job. -/
theorem c1_terminal_update_noop_witness :
    (mkJob StatusCompleted 0).Status ≠ StatusNotCompleted ∧
    UpdateJob (mkJob StatusCompleted 0) (envOf (.response 200 respCompleted)) =
      ⟨mkJob StatusCompleted 0, none, false⟩ :=
  ⟨by decide, c1_terminal_update_noop (mkJob StatusCompleted 0)
    (envOf (.response 200 respCompleted)) (by decide)⟩

/-- Claim C4: reposting a job whose status is not "timeout" is rejected
with `ErrInvalidRepostStatus` before any network activity (zero network
calls) and leaves the job unchanged, for every environment. -/
theorem c4_repost_rejected (c : Client) (env : RepostEnv) (job : Job)
    (h : job.Status ≠ StatusTimeout) :
    RepostJob c env job = ⟨job, some .errInvalidRepostStatus, 0⟩ := by
  unfold RepostJob
  rw [if_pos h]

/-- Witness for C4 across the four non-timeout status values. -/
theorem c4_repost_rejected_witness :
    (RepostJob simpleClient repostEnv200 (mkJob StatusNotCompleted 0) =
      ⟨mkJob StatusNotCompleted 0, some .errInvalidRepostStatus, 0⟩) ∧
    (RepostJob simpleClient repostEnv200 (mkJob StatusCompleted 0) =
      ⟨mkJob StatusCompleted 0, some .errInvalidRepostStatus, 0⟩) ∧
    (RepostJob simpleClient repostEnv200 (mkJob StatusNotFound 0) =
      ⟨mkJob StatusNotFound 0, some .errInvalidRepostStatus, 0⟩) ∧
    (RepostJob simpleClient repostEnv200 (mkJob StatusSkipped 0) =
      ⟨mkJob StatusSkipped 0, some .errInvalidRepostStatus, 0⟩) :=
  ⟨c4_repost_rejected simpleClient repostEnv200 (mkJob StatusNotCompleted 0) (by decide),
   c4_repost_rejected simpleClient repostEnv200 (mkJob StatusCompleted 0) (by decide),
   c4_repost_rejected simpleClient repostEnv200 (mkJob StatusNotFound 0) (by decide),
   c4_repost_rejected simpleClient repostEnv200 (mkJob StatusSkipped 0) (by decide)⟩

/-- A timed-out job carrying stale annotation fields. -/
def staleTimeoutJob : Job := ⟨["old"], "old name", StatusTimeout, 1, "tok", "u", "", 0⟩

/-- Claim C5 (code bug evidence): after a successful repost POST
(HTTP 200) of a timed-out job, the `UpdateJob` call made by `RepostJob`
short-circuits on its own guard (the job's status is still "timeout", not
"not completed"), so exactly one network call happens (the POST), no poll
is issued, and the job is returned completely unchanged — even though the
poll environment would have reported "not completed" with fresh fields. -/
theorem c5_repost_poll_is_noop :
    RepostJob simpleClient repostEnv200 staleTimeoutJob = ⟨staleTimeoutJob, none, 1⟩ := by
  decide

/-- Claim C6: a poll response carrying a non-null `error` field makes
`updateJobFromRequest` fail with the error payload and HTTP status code
in the message; the job is mutated only on the success path, and then
exactly on `Categories`, `Name`, `Status`, `TTL` and `SkipReason`
(`Token`, `URL`, `createdAt` kept); whenever `UpdateJob` returns an
error the job is unchanged. -/
theorem c6_poll_error_frame (job : Job) (code : Nat) (body : ApiResponse) (env : CallEnv) :
    (∀ e, body.error = some e →
      updateJobFromRequest job (.response code body) =
        .error (.errMsg ("api error: " ++ e ++ ", status code: " ++ toString code))) ∧
    (body.error = none →
      updateJobFromRequest job (.response code body) = .ok { job with
        Categories := body.categories
        Name := body.name
        Status := body.status
        TTL := body.ttl
        SkipReason := body.reason }) ∧
    (∀ e, (UpdateJob job env).err = some e → (UpdateJob job env).job = job) := by
  refine ⟨?_, ?_, ?_⟩
  · intro e he
    simp only [updateJobFromRequest, he]
  · intro he
    simp only [updateJobFromRequest, he]
  · intro e
    unfold UpdateJob
    by_cases h : job.Status ≠ StatusNotCompleted
    · rw [if_pos h]; intro; rfl
    · rw [if_neg h]
      cases env.authErr with
      | some a => intro; rfl
      | none =>
        cases hu : updateJobFromRequest job env.outcome with
        | error er => intro; rfl
        | ok j => simp

/-- Witness for C6: a concrete erroring poll leaves the error message
with payload and status code. -/
theorem c6_poll_error_frame_witness :
    updateJobFromRequest (mkJob StatusNotCompleted 0) (.response 200 respErr) =
      .error (.errMsg "api error: oops, status code: 200") :=
  (c6_poll_error_frame (mkJob StatusNotCompleted 0) 200 respErr
    (envOf (.response 200 respErr))).1 "oops" rfl

/-- Claim C8: the job built by the submission path normalizes a
protocol-relative response URL by prefixing "https:", and stores any
other URL unchanged. -/
theorem c8_url_normalized (now : Int) (code : Nat) (body : ApiResponse) (j : Job)
    (h : doImageRequest now (.response code body) = .ok j) :
    j.URL = if prefixedBy body.url "//" then "https:" ++ body.url else body.url := by
  cases hb : body.error with
  | some e =>
    simp only [doImageRequest, hb] at h
    exact Except.noConfusion h
  | none =>
    simp only [doImageRequest, hb] at h
    cases h
    rfl

/-- A submission body with a protocol-relative URL. -/
def respProtoRel : ApiResponse := ⟨[], none, "", "", "not completed", 0, "tok", "//host/path"⟩

/-- The job the submission path builds from `respProtoRel` at instant 0. -/
def jobProtoRel : Job := ⟨[], "", "not completed", 0, "tok", "https://host/path", "", 0⟩

/-- Witness for C8: `//host/path` is stored as `https://host/path`. -/
theorem c8_url_normalized_witness :
    jobProtoRel.URL =
      if prefixedBy respProtoRel.url "//" then "https:" ++ respProtoRel.url
      else respProtoRel.url :=
  c8_url_normalized 0 200 respProtoRel jobProtoRel rfl

/-- A response whose status string is none of the five enum values. -/
def respOpenStatus : ApiResponse := ⟨[], none, "", "", "weird status", 0, "tok", ""⟩

/-- Counterexample to C9 as stated: a service response whose status
field is an arbitrary string is processed by the submission path into a
job whose `Status` is not among the five enumeration values —
`JobStatus` is an open string type. -/
theorem c9_closed_enum_counterexample :
    ((doImageRequest 0 (.response 200 respOpenStatus)).toOption.map
      (fun j => statusValues.contains j.Status)) = some false := by
  decide

/-- Claim C9 (amended): submission and polling store the response's
status string verbatim into `Job.Status`, so the status is one of the
five enumeration values exactly when the service sends one of them;
other strings pass through unvalidated. -/
theorem c9_status_passthrough (now : Int) (code : Nat) (body : ApiResponse)
    (job j1 j2 : Job) :
    (body.error = none → doImageRequest now (.response code body) = .ok j1 →
      j1.Status = body.status) ∧
    (body.error = none → updateJobFromRequest job (.response code body) = .ok j2 →
      j2.Status = body.status) := by
  constructor
  · intro he h
    simp only [doImageRequest, he] at h
    cases h
    rfl
  · intro he h
    simp only [updateJobFromRequest, he] at h
    cases h
    rfl

/-- The job the submission path builds from `respOpenStatus` at
instant 0. -/
def jobOpenStatus : Job := ⟨[], "", "weird status", 0, "tok", "", "", 0⟩

/-- Witness for the amended C9 at a concrete response. -/
theorem c9_status_passthrough_witness :
    jobOpenStatus.Status = respOpenStatus.status ∧
    (mkJob "weird status" 0).Status = respOpenStatus.status :=
  ⟨(c9_status_passthrough 0 200 respOpenStatus (mkJob StatusNotCompleted 0)
      jobOpenStatus (mkJob "weird status" 0)).1 rfl rfl,
   (c9_status_passthrough 0 200 respOpenStatus (mkJob StatusNotCompleted 0)
      jobOpenStatus (mkJob "weird status" 0)).2 rfl rfl⟩

/-! Helper lemmas about `UpdateJob` and the wait loop. -/

/-- Every error produced by `updateJobFromRequest` is an `errMsg`. -/
theorem updateJobFromRequest_err_shape (job : Job) (o : HttpOutcome) (e : CloudErr)
    (h : updateJobFromRequest job o = .error e) : ∃ s, e = .errMsg s := by
  cases o with
  | transportError m =>
    simp only [updateJobFromRequest] at h
    injection h with h1
    exact ⟨_, h1.symm⟩
  | decodeError m =>
    simp only [updateJobFromRequest] at h
    injection h with h1
    exact ⟨_, h1.symm⟩
  | response code body =>
    cases hb : body.error with
    | some s =>
      simp only [updateJobFromRequest, hb] at h
      injection h with h1
      exact ⟨_, h1.symm⟩
    | none =>
      simp only [updateJobFromRequest, hb] at h
      exact Except.noConfusion h

/-- Every error produced by `UpdateJob` is an `errMsg`; in particular it
is never the timeout sentinel. -/
theorem updateJob_err_shape (job : Job) (env : CallEnv) (e : CloudErr)
    (h : (UpdateJob job env).err = some e) : ∃ s, e = .errMsg s := by
  unfold UpdateJob at h
  by_cases hs : job.Status ≠ StatusNotCompleted
  · rw [if_pos hs] at h
    exact absurd h (by simp)
  · rw [if_neg hs] at h
    cases ha : env.authErr with
    | some a =>
      simp only [ha] at h
      injection h with h1
      exact ⟨_, h1.symm⟩
    | none =>
      simp only [ha] at h
      cases hu : updateJobFromRequest job env.outcome with
      | error er =>
        simp only [hu] at h
        injection h with h1
        exact h1 ▸ updateJobFromRequest_err_shape job env.outcome er hu
      | ok j =>
        simp only [hu] at h
        exact Option.noConfusion h

/-- A successful `UpdateJob` that still observes "not completed" issued
a network call. -/
theorem updateJob_netCall (job : Job) (env : CallEnv)
    (h1 : (UpdateJob job env).err = none)
    (h2 : (UpdateJob job env).job.Status = StatusNotCompleted) :
    (UpdateJob job env).netCall = true := by
  unfold UpdateJob at h1 h2 ⊢
  by_cases hs : job.Status ≠ StatusNotCompleted
  · rw [if_pos hs] at h2
    exact absurd h2 hs
  · rw [if_neg hs] at h1 ⊢
    cases ha : env.authErr with
    | some a =>
      simp only [ha] at h1
      exact Option.noConfusion h1
    | none =>
      simp only [ha] at h1 ⊢
      cases hu : updateJobFromRequest job env.outcome with
      | error er =>
        simp only [hu] at h1
        exact Option.noConfusion h1
      | ok j => simp only [hu]

/-- With a non-positive timeout the wait loop never exits with the
timeout error. -/
theorem waitLoop_no_timeout (env : Nat → CallEnv) (timeout timeoutAt : Int)
    (hneg : ¬ 0 < timeout) :
    ∀ fuel k job now,
      (waitLoop env timeout timeoutAt k job now fuel).result ≠ some (some .errTimeout) := by
  intro fuel
  induction fuel with
  | zero =>
    intro k job now
    simp [waitLoop]
  | succ n ih =>
    intro k job now
    have hc : ¬(0 < timeout ∧ timeoutAt < now) := fun hx => hneg hx.1
    simp only [waitLoop]
    rw [if_neg hc]
    cases hue : (UpdateJob job (env k)).err with
    | some e =>
      simp only [hue]
      intro hx
      obtain ⟨s, hss⟩ := updateJob_err_shape job (env k) e hue
      subst hss
      simp at hx
    | none =>
      simp only [hue]
      by_cases hst : (UpdateJob job (env k)).job.Status ≠ StatusNotCompleted
      · rw [if_pos hst]
        simp
      · rw [if_neg hst]
        exact ih (k + 1) _ _

/-- A timeout exit of the wait loop implies a positive timeout, a clock
past the deadline, and a trace all of whose polls succeeded and still
observed "not completed". -/
theorem waitLoop_timeout_char (env : Nat → CallEnv) (timeout timeoutAt : Int) :
    ∀ fuel k job now,
      (waitLoop env timeout timeoutAt k job now fuel).result = some (some .errTimeout) →
      0 < timeout ∧ timeoutAt < (waitLoop env timeout timeoutAt k job now fuel).now ∧
        allNotCompleted (waitLoop env timeout timeoutAt k job now fuel).trace := by
  intro fuel
  induction fuel with
  | zero =>
    intro k job now h
    simp [waitLoop] at h
  | succ n ih =>
    intro k job now h
    simp only [waitLoop] at h ⊢
    by_cases hc : 0 < timeout ∧ timeoutAt < now
    · rw [if_pos hc] at h ⊢
      exact ⟨hc.1, hc.2, by simp [allNotCompleted]⟩
    · rw [if_neg hc] at h ⊢
      cases hue : (UpdateJob job (env k)).err with
      | some e =>
        simp only [hue] at h
        obtain ⟨s, hss⟩ := updateJob_err_shape job (env k) e hue
        subst hss
        simp at h
      | none =>
        simp only [hue] at h ⊢
        by_cases hst : (UpdateJob job (env k)).job.Status ≠ StatusNotCompleted
        · rw [if_pos hst] at h
          simp at h
        · rw [if_neg hst] at h ⊢
          obtain ⟨h1, h2, h3⟩ := ih (k + 1) _ _ h
          refine ⟨h1, h2, ?_⟩
          intro r hr
          rcases List.mem_cons.mp hr with hr1 | hr2
          · subst hr1
            exact ⟨rfl, not_not.mp hst⟩
          · exact h3 r hr2

/-- Conversely: if the wait loop exits and every poll of its trace
succeeded while still observing "not completed", the exit was the
timeout error. -/
theorem waitLoop_exit_char (env : Nat → CallEnv) (timeout timeoutAt : Int) :
    ∀ fuel k job now res,
      (waitLoop env timeout timeoutAt k job now fuel).result = some res →
      allNotCompleted (waitLoop env timeout timeoutAt k job now fuel).trace →
      res = some .errTimeout := by
  intro fuel
  induction fuel with
  | zero =>
    intro k job now res h _
    simp [waitLoop] at h
  | succ n ih =>
    intro k job now res h hall
    simp only [waitLoop] at h hall
    by_cases hc : 0 < timeout ∧ timeoutAt < now
    · rw [if_pos hc] at h
      injection h with h1
      exact h1.symm
    · rw [if_neg hc] at h hall
      cases hue : (UpdateJob job (env k)).err with
      | some e =>
        simp only [hue] at h hall
        have := (hall _ (List.mem_singleton.mpr rfl)).1
        exact Option.noConfusion this
      | none =>
        simp only [hue] at h hall
        by_cases hst : (UpdateJob job (env k)).job.Status ≠ StatusNotCompleted
        · rw [if_pos hst] at h hall
          have := (hall _ (List.mem_singleton.mpr rfl)).2
          exact absurd this hst
        · rw [if_neg hst] at h hall
          exact ih (k + 1) _ _ res h (fun r hr => hall r (List.mem_cons_of_mem _ hr))

/-- The first iteration of the wait loop happens at the clock value the
loop was entered with. -/
theorem waitLoop_head (env : Nat → CallEnv) (timeout timeoutAt : Int) :
    ∀ fuel k job now r,
      ((waitLoop env timeout timeoutAt k job now fuel).trace).head? = some r →
      r.issuedAt = now := by
  intro fuel
  induction fuel with
  | zero =>
    intro k job now r h
    simp [waitLoop] at h
  | succ n ih =>
    intro k job now r h
    simp only [waitLoop] at h
    by_cases hc : 0 < timeout ∧ timeoutAt < now
    · rw [if_pos hc] at h
      simp at h
    · rw [if_neg hc] at h
      cases hue : (UpdateJob job (env k)).err with
      | some e =>
        simp only [hue] at h
        injection h with h1
        rw [← h1]
      | none =>
        simp only [hue] at h
        by_cases hst : (UpdateJob job (env k)).job.Status ≠ StatusNotCompleted
        · rw [if_pos hst] at h
          injection h with h1
          rw [← h1]
        · rw [if_neg hst] at h
          injection h with h1
          rw [← h1]

/-- No iteration of the wait loop is issued before the clock value the
loop was entered with (round trips take nonnegative time). -/
theorem waitLoop_issued_lb (env : Nat → CallEnv) (timeout timeoutAt : Int)
    (hd : ∀ i, 0 ≤ (env i).dur) :
    ∀ fuel k job now r,
      r ∈ (waitLoop env timeout timeoutAt k job now fuel).trace → now ≤ r.issuedAt := by
  intro fuel
  induction fuel with
  | zero =>
    intro k job now r hr
    simp [waitLoop] at hr
  | succ n ih =>
    intro k job now r hr
    simp only [waitLoop] at hr
    by_cases hc : 0 < timeout ∧ timeoutAt < now
    · rw [if_pos hc] at hr
      simp at hr
    · rw [if_neg hc] at hr
      have hsec : (0 : Int) ≤ Second := by norm_num [Second]
      have hnc : (0 : Int) ≤ (if (UpdateJob job (env k)).netCall then (env k).dur else 0) := by
        by_cases hb : (UpdateJob job (env k)).netCall
        · rw [if_pos hb]; exact hd k
        · rw [if_neg hb]
      cases hue : (UpdateJob job (env k)).err with
      | some e =>
        simp only [hue] at hr
        rcases List.mem_singleton.mp hr with hr1
        subst hr1
        exact le_refl now
      | none =>
        simp only [hue] at hr
        by_cases hst : (UpdateJob job (env k)).job.Status ≠ StatusNotCompleted
        · rw [if_pos hst] at hr
          rcases List.mem_singleton.mp hr with hr1
          subst hr1
          exact le_refl now
        · rw [if_neg hst] at hr
          rcases List.mem_cons.mp hr with hr1 | hr2
          · subst hr1
            exact le_refl now
          · have := ih (k + 1) _ _ r hr2
            linarith

/-- Consecutive wait-loop iterations are spaced by exactly the network
round-trip time plus the fixed one-second sleep. -/
theorem waitLoop_spaced (env : Nat → CallEnv) (timeout timeoutAt : Int) :
    ∀ fuel k job now,
      spacedFrom env k ((waitLoop env timeout timeoutAt k job now fuel).trace) = true := by
  intro fuel
  induction fuel with
  | zero =>
    intro k job now
    simp [waitLoop, spacedFrom]
  | succ n ih =>
    intro k job now
    simp only [waitLoop]
    by_cases hc : 0 < timeout ∧ timeoutAt < now
    · rw [if_pos hc]
      simp [spacedFrom]
    · rw [if_neg hc]
      cases hue : (UpdateJob job (env k)).err with
      | some e =>
        simp only [hue]
        simp [spacedFrom]
      | none =>
        simp only [hue]
        by_cases hst : (UpdateJob job (env k)).job.Status ≠ StatusNotCompleted
        · rw [if_pos hst]
          simp [spacedFrom]
        · rw [if_neg hst]
          have hnet := updateJob_netCall job (env k) hue (not_not.mp hst)
          have hihs := ih (k + 1) (UpdateJob job (env k)).job
            (now + (if (UpdateJob job (env k)).netCall then (env k).dur else 0) + Second)
          cases htr : (waitLoop env timeout timeoutAt (k + 1) (UpdateJob job (env k)).job
              (now + (if (UpdateJob job (env k)).netCall then (env k).dur else 0) + Second)
              n).trace with
          | nil =>
            simp [spacedFrom]
          | cons r2 tl =>
            have hr2 : r2.issuedAt =
                now + (if (UpdateJob job (env k)).netCall then (env k).dur else 0) + Second :=
              waitLoop_head env timeout timeoutAt n (k + 1) _ _ r2 (by rw [htr]; rfl)
            rw [htr] at hihs
            simp only [spacedFrom, hihs, Bool.and_true]
            rw [hr2, if_pos hnet]
            simp

/-- Claim C2: `WaitJob` returns `ErrTimeout` exactly when a positive
timeout was given, the clock moved past `start + timeout`, and every
poll it performed succeeded while still observing "not completed"; with
`timeout = 0` it never returns `ErrTimeout`, no matter how much time
elapses (it runs until a poll fails or the status becomes terminal). -/
theorem c2_wait_timeout_iff (job : Job) (timeout start : Int) (env : Nat → CallEnv)
    (fuel : Nat) :
    (timeout = 0 →
      (WaitJob job timeout start env fuel).result ≠ some (some .errTimeout)) ∧
    ((WaitJob job timeout start env fuel).result = some (some .errTimeout) →
      0 < timeout ∧ start + timeout < (WaitJob job timeout start env fuel).now ∧
        allNotCompleted (WaitJob job timeout start env fuel).trace) ∧
    (∀ res, (WaitJob job timeout start env fuel).result = some res →
      allNotCompleted (WaitJob job timeout start env fuel).trace →
      res = some .errTimeout) := by
  have hw : WaitJob job timeout start env fuel =
      waitLoop env timeout (start + timeout) 0 job
        (if start < job.createdAt + pollMinWait then job.createdAt + pollMinWait else start)
        fuel := rfl
  rw [hw]
  refine ⟨?_, ?_, ?_⟩
  · intro h0
    exact waitLoop_no_timeout env timeout (start + timeout) (by omega) fuel 0 job _
  · intro h
    exact waitLoop_timeout_char env timeout (start + timeout) fuel 0 job _ h
  · intro res h hall
    exact waitLoop_exit_char env timeout (start + timeout) fuel 0 job _ res h hall

/-- Witness for C2: a concrete run with timeout 5ns against a service
that keeps answering "not completed" exits with the timeout error, past
the deadline, with an all-"not completed" trace. -/
theorem c2_wait_timeout_iff_witness :
    0 < (5 : Int) ∧ 0 + 5 < (WaitJob waitJob0 5 0 waitEnvNC 2).now ∧
      allNotCompleted (WaitJob waitJob0 5 0 waitEnvNC 2).trace :=
  (c2_wait_timeout_iff waitJob0 5 0 waitEnvNC 2).2.1 (by rfl)

/-- Claim C3: `WaitJob` never issues any poll before
`createdAt + pollMinWait` (4 seconds after submission); when that
instant is still in the future at entry it sleeps until exactly then
before the first poll; and consecutive polls are separated by the fixed
one-second inter-poll interval (plus the poll's own round-trip time). -/
theorem c3_wait_poll_timing (job : Job) (timeout start : Int) (env : Nat → CallEnv)
    (fuel : Nat) (hd : ∀ i, 0 ≤ (env i).dur) :
    (∀ r ∈ (WaitJob job timeout start env fuel).trace,
      job.createdAt + pollMinWait ≤ r.issuedAt) ∧
    (∀ r, ((WaitJob job timeout start env fuel).trace).head? = some r →
      r.issuedAt =
        if start < job.createdAt + pollMinWait then job.createdAt + pollMinWait else start) ∧
    spacedFrom env 0 (WaitJob job timeout start env fuel).trace = true := by
  have hw : WaitJob job timeout start env fuel =
      waitLoop env timeout (start + timeout) 0 job
        (if start < job.createdAt + pollMinWait then job.createdAt + pollMinWait else start)
        fuel := rfl
  rw [hw]
  refine ⟨?_, ?_, ?_⟩
  · intro r hr
    have hlb := waitLoop_issued_lb env timeout (start + timeout) hd fuel 0 job _ r hr
    by_cases hlt : start < job.createdAt + pollMinWait
    · rw [if_pos hlt] at hlb
      exact hlb
    · rw [if_neg hlt] at hlb
      have := le_of_not_lt hlt
      linarith
  · intro r hr
    exact waitLoop_head env timeout (start + timeout) fuel 0 job _ r hr
  · exact waitLoop_spaced env timeout (start + timeout) fuel 0 job _

/-- Witness for C3: a job created at instant 0 and waited on from
instant 0 has its first (and only) poll at instant `4 * Second`. -/
theorem c3_wait_poll_timing_witness :
    (∀ r ∈ (WaitJob (mkJob StatusNotCompleted 0) 0 0 waitEnvC 3).trace,
      (mkJob StatusNotCompleted 0).createdAt + pollMinWait ≤ r.issuedAt) ∧
    (∀ r, ((WaitJob (mkJob StatusNotCompleted 0) 0 0 waitEnvC 3).trace).head? = some r →
      r.issuedAt =
        if (0 : Int) < (mkJob StatusNotCompleted 0).createdAt + pollMinWait
        then (mkJob StatusNotCompleted 0).createdAt + pollMinWait else 0) ∧
    spacedFrom waitEnvC 0 (WaitJob (mkJob StatusNotCompleted 0) 0 0 waitEnvC 3).trace = true :=
  c3_wait_poll_timing (mkJob StatusNotCompleted 0) 0 0 waitEnvC 3 (fun _ => le_refl 0)

/-! Association-list lemmas for the `Params` map. -/

/-- Looking up the key just inserted yields the inserted value. -/
theorem Params.get_insert_self (p : Params) (k v : String) :
    Params.get (Params.insert p k v) k = some v := by
  simp [Params.insert, Params.get]

/-- Inserting one key leaves every other key's binding unchanged. -/
theorem Params.get_insert_ne (p : Params) (k v k2 : String) (h : k2 ≠ k) :
    Params.get (Params.insert p k v) k2 = Params.get p k2 := by
  simp only [Params.insert, Params.get]
  rw [if_neg (Ne.symm h)]
  induction p with
  | nil => rfl
  | cons kv rest ih =>
    by_cases hk : kv.1 = k
    · rw [List.filter_cons_of_neg (by simp [hk])]
      rw [ih]
      show Params.get rest k2 = Params.get (kv :: rest) k2
      have : kv.1 ≠ k2 := by rw [hk]; exact Ne.symm h
      simp [Params.get, this]
    · rw [List.filter_cons_of_pos (by simp [hk])]
      by_cases h2 : kv.1 = k2
      · simp [Params.get, h2]
      · simp only [Params.get, if_neg h2]
        exact ih

/-- Lookup over the five-fold oauth parameter injection, fully
characterized. -/
theorem oauthParams_get (p : Params) (nonce key tsStr : String) (k2 : String) :
    Params.get (((((p.insert "oauth_nonce" nonce).insert "oauth_consumer_key" key).insert
        "oauth_signature_method" oauthSignatureMethod).insert "oauth_timestamp" tsStr).insert
        "oauth_version" oauthVersion) k2 =
      if k2 = "oauth_version" then some oauthVersion
      else if k2 = "oauth_timestamp" then some tsStr
      else if k2 = "oauth_signature_method" then some oauthSignatureMethod
      else if k2 = "oauth_consumer_key" then some key
      else if k2 = "oauth_nonce" then some nonce
      else Params.get p k2 := by
  by_cases h1 : k2 = "oauth_version"
  · subst h1; rw [Params.get_insert_self, if_pos rfl]
  · rw [Params.get_insert_ne _ _ _ _ h1, if_neg h1]
    by_cases h2 : k2 = "oauth_timestamp"
    · subst h2; rw [Params.get_insert_self, if_pos rfl]
    · rw [Params.get_insert_ne _ _ _ _ h2, if_neg h2]
      by_cases h3 : k2 = "oauth_signature_method"
      · subst h3; rw [Params.get_insert_self, if_pos rfl]
      · rw [Params.get_insert_ne _ _ _ _ h3, if_neg h3]
        by_cases h4 : k2 = "oauth_consumer_key"
        · subst h4; rw [Params.get_insert_self, if_pos rfl]
        · rw [Params.get_insert_ne _ _ _ _ h4, if_neg h4]
          by_cases h5 : k2 = "oauth_nonce"
          · subst h5; rw [Params.get_insert_self, if_pos rfl]
          · rw [Params.get_insert_ne _ _ _ _ h5, if_neg h5]

/-- Claim C7: successful signed-mode signing of a non-nil parameter map
returns that same map mutated: all non-oauth entries are unchanged, the
five oauth keys are present with the injected values (hashed hex-encoded
nonce, consumer key, signature-method identifier, timestamp, protocol
version), and the key set grows by exactly those five keys. -/
theorem c7_sign_mutates_params (crypto : CryptoEnv) (buf : List Nat) (ts : Int)
    (method url key secret : String) (p : Params) (hdr : String) (p1 : Params)
    (h : oauthSign crypto (some buf) ts method url key secret (some p) = .ok (hdr, p1)) :
    (∀ k2, k2 ∉ oauthKeys → Params.get p1 k2 = Params.get p k2) ∧
    Params.get p1 "oauth_nonce" = some (hexEncode (crypto.sha256 buf)) ∧
    Params.get p1 "oauth_consumer_key" = some key ∧
    Params.get p1 "oauth_signature_method" = some oauthSignatureMethod ∧
    Params.get p1 "oauth_timestamp" = some (toString ts) ∧
    Params.get p1 "oauth_version" = some oauthVersion ∧
    (∀ k2, Params.containsKey p1 k2 =
      (Params.containsKey p k2 || decide (k2 ∈ oauthKeys))) := by
  simp only [oauthSign] at h
  injection h with h1
  have hp : p1 = ((((((p : Params).insert "oauth_nonce"
      (hexEncode (crypto.sha256 buf))).insert "oauth_consumer_key" key).insert
      "oauth_signature_method" oauthSignatureMethod).insert "oauth_timestamp"
      (toString ts)).insert "oauth_version" oauthVersion) :=
    (congrArg Prod.snd h1).symm
  subst hp
  refine ⟨?_, ?_, ?_, ?_, ?_, ?_, ?_⟩
  · intro k2 hk2
    obtain ⟨hn, hc, hs, ht, hv⟩ :
        k2 ≠ "oauth_nonce" ∧ k2 ≠ "oauth_consumer_key" ∧
        k2 ≠ "oauth_signature_method" ∧ k2 ≠ "oauth_timestamp" ∧
        k2 ≠ "oauth_version" := by simpa [oauthKeys] using hk2
    rw [oauthParams_get, if_neg hv, if_neg ht, if_neg hs, if_neg hc, if_neg hn]
  · rw [oauthParams_get]; rfl
  · rw [oauthParams_get]; rfl
  · rw [oauthParams_get]; rfl
  · rw [oauthParams_get]; rfl
  · rw [oauthParams_get]; rfl
  · intro k2
    by_cases hm : k2 ∈ oauthKeys
    · have hd1 : decide (k2 ∈ oauthKeys) = true := decide_eq_true hm
      unfold Params.containsKey
      rw [oauthParams_get, hd1, Bool.or_true]
      rcases (by simpa [oauthKeys] using hm :
          k2 = "oauth_nonce" ∨ k2 = "oauth_consumer_key" ∨
          k2 = "oauth_signature_method" ∨ k2 = "oauth_timestamp" ∨
          k2 = "oauth_version") with h | h | h | h | h <;> subst h <;> rfl
    · obtain ⟨hn, hc, hs, ht, hv⟩ :
          k2 ≠ "oauth_nonce" ∧ k2 ≠ "oauth_consumer_key" ∧
          k2 ≠ "oauth_signature_method" ∧ k2 ≠ "oauth_timestamp" ∧
          k2 ≠ "oauth_version" := by simpa [oauthKeys] using hm
      have hd0 : decide (k2 ∈ oauthKeys) = false := decide_eq_false hm
      unfold Params.containsKey
      rw [oauthParams_get, if_neg hv, if_neg ht, if_neg hs, if_neg hc, if_neg hn,
        hd0, Bool.or_false]

/-- Witness for C7 at a concrete signing run. -/
theorem c7_sign_mutates_params_witness :
    (∀ k2, k2 ∉ oauthKeys → Params.get c7SignedParams k2 = Params.get c7Params k2) ∧
    Params.get c7SignedParams "oauth_nonce" = some (hexEncode (dummyCrypto.sha256 [])) ∧
    Params.get c7SignedParams "oauth_consumer_key" = some "k" ∧
    Params.get c7SignedParams "oauth_signature_method" = some oauthSignatureMethod ∧
    Params.get c7SignedParams "oauth_timestamp" = some (toString (0 : Int)) ∧
    Params.get c7SignedParams "oauth_version" = some oauthVersion ∧
    (∀ k2, Params.containsKey c7SignedParams k2 =
      (Params.containsKey c7Params k2 || decide (k2 ∈ oauthKeys))) :=
  c7_sign_mutates_params dummyCrypto [] 0 "POST" "https://x" "k" "s" c7Params
    c7Header c7SignedParams (by rfl)

/-- The locale entry of a parameter map after locale defaulting: the
caller's value when present, `DefaultLocale` otherwise. -/
theorem locale_defaulting (p : Params) :
    Params.get
      (if (Params.get p "image_request[locale]").isSome then p
       else p.insert "image_request[locale]" DefaultLocale) "image_request[locale]" =
    some ((Params.get p "image_request[locale]").getD DefaultLocale) := by
  cases hL : Params.get p "image_request[locale]" with
  | some v =>
    rw [if_pos (by simp), hL]
    rfl
  | none =>
    rw [if_neg (by simp), Params.get_insert_self]
    rfl

/-- Claim C10: both submission operations, given a non-nil parameter
map (and, for `ImageRequest`, a multipart body that builds), leave the
caller's map with a locale entry: the caller's own value when one was
provided, `DefaultLocale` (`en-US`) when the key was absent — whatever
the authentication mode and however the call ends. -/
theorem c10_locale_default (c : Client) (env : SubmitEnv) (url : String) (p : Params)
    (hm : env.multipartErr = none) :
    ((ImageRequest c env (some p)).1.bind
        (fun q => Params.get q "image_request[locale]") =
      some ((Params.get p "image_request[locale]").getD DefaultLocale)) ∧
    ((RemoteImageRequest c env url (some p)).1.bind
        (fun q => Params.get q "image_request[locale]") =
      some ((Params.get p "image_request[locale]").getD DefaultLocale)) := by
  have hbase := locale_defaulting p
  constructor
  · simp only [ImageRequest, hm]
    cases hce : env.closeErr with
    | some e =>
      simp only [hce, Option.map_some, Option.some_bind, Option.getD_some]
      exact hbase
    | none =>
      simp only [hce, getAuthHeader]
      by_cases hs : c.secret = ""
      · rw [if_pos hs]
        simpa using hbase
      · rw [if_neg hs]
        cases hrb : env.randBytes with
        | none =>
          simp only [oauthSign, hrb]
          simpa using hbase
        | some buf =>
          simp only [oauthSign, hrb]
          simp only [Option.map_some', Option.some_bind, Option.getD_some]
          rw [oauthParams_get, if_neg (by decide), if_neg (by decide),
            if_neg (by decide), if_neg (by decide), if_neg (by decide)]
          exact hbase
  · simp only [RemoteImageRequest, getAuthHeader]
    have hrem : Params.get
        ((if (Params.get p "image_request[locale]").isSome then p
          else p.insert "image_request[locale]" DefaultLocale).insert
          "image_request[remote_image_url]" url) "image_request[locale]" =
        some ((Params.get p "image_request[locale]").getD DefaultLocale) := by
      rw [Params.get_insert_ne _ _ _ _ (by decide)]
      exact hbase
    by_cases hs : c.secret = ""
    · rw [if_pos hs]
      simpa using hrem
    · rw [if_neg hs]
      cases hrb : env.randBytes with
      | none =>
        simp only [oauthSign, hrb]
        simpa using hrem
      | some buf =>
        simp only [oauthSign, hrb]
        simp only [Option.map_some', Option.some_bind, Option.getD_some]
        rw [oauthParams_get, if_neg (by decide), if_neg (by decide),
          if_neg (by decide), if_neg (by decide), if_neg (by decide)]
        exact hrem

/-- Witness for C10: submitting with an empty parameter map leaves it
with the default locale entry, for both submission operations. -/
theorem c10_locale_default_witness :
    ((ImageRequest simpleClient submitEnv0 (some [])).1.bind
        (fun q => Params.get q "image_request[locale]") =
      some ((Params.get [] "image_request[locale]").getD DefaultLocale)) ∧
    ((RemoteImageRequest simpleClient submitEnv0 "http://example.com/i.jpg" (some [])).1.bind
        (fun q => Params.get q "image_request[locale]") =
      some ((Params.get [] "image_request[locale]").getD DefaultLocale)) :=
  c10_locale_default simpleClient submitEnv0 "http://example.com/i.jpg" [] rfl

end CloudSight
